import Mathlib

/-!
Verification development for the spreadsheet question-answering service
(`gemini.py`): the workbook ingestor, the DuckDB connection/registration
cache, the query executor, the restricted pandas expression environment,
and the LangGraph agent orchestrator.  Python strings are modeled as
lists of Unicode code points (`PyStr`); the data handled by the program
is ASCII, so the character classes of `re` (`\w`, `\s`) and `str.lower`
are modeled over the ASCII range.  External effects (the Gemini engine,
pandas sheet reads, DuckDB query execution) are modeled as oracles
supplied as explicit parameters, and the process-wide caches as an
explicit state record threaded through the functions.
-/

namespace Genba

/-! ### Python string model -/

/-- A Python string, as a list of Unicode code points. -/
abbrev PyStr := List Nat

/-- Code points of a Lean string literal, for concrete test inputs. -/
def strToPy (s : String) : PyStr := s.data.map Char.toNat

/-- Decode a code-point list back into a Lean string. -/
def pyToStr (l : PyStr) : String := String.mk (l.map Char.ofNat)

/-- The regex class `\w` of `re.sub(r"[^\w]", "_", ...)`, over ASCII:
letters, digits and the underscore. -/
def isWordChar (c : Nat) : Bool :=
  decide ((65 ≤ c ∧ c ≤ 90) ∨ (97 ≤ c ∧ c ≤ 122) ∨ (48 ≤ c ∧ c ≤ 57) ∨ c = 95)

/-- The whitespace characters removed by Python `str.strip()`:
space, tab, newline, carriage return, vertical tab, form feed. -/
def isPySpace (c : Nat) : Bool :=
  decide (c = 32 ∨ c = 9 ∨ c = 10 ∨ c = 13 ∨ c = 11 ∨ c = 12)

/-- Python `str.lower()` on one code point, over the ASCII range. -/
def toLowerCp (c : Nat) : Nat := if 65 ≤ c ∧ c ≤ 90 then c + 32 else c

/-- Remove trailing characters satisfying `p` (the right half of
Python `str.strip` / `str.strip("_")`). -/
def rstripIf (p : Nat → Bool) : PyStr → PyStr
  | [] => []
  | a :: rest =>
    let r := rstripIf p rest
    if r.isEmpty && p a then [] else a :: r

/-- Python `str.strip` with character class `p`: drop the leading and the
trailing run of characters satisfying `p`. -/
def pyStrip (p : Nat → Bool) (l : PyStr) : PyStr := rstripIf p (l.dropWhile p)

/-- One pass of `re.sub(r"_+", "_", ...)`: the flag records whether the
previously emitted character was an underscore of a collapsed run. -/
def collapseAux : Bool → PyStr → PyStr
  | _, [] => []
  | afterUnderscore, c :: rest =>
    if c == 95 then
      if afterUnderscore then collapseAux true rest
      else 95 :: collapseAux true rest
    else c :: collapseAux false rest

/-- `re.sub(r"_+", "_", l)`: collapse every run of underscores to one. -/
def collapseUnderscores (l : PyStr) : PyStr := collapseAux false l

/-- `sanitize_table_name` from `gemini.py`:
`sanitized = re.sub(r"[^\w]", "_", sheet_name.strip()).lower()` followed by
`sanitized = re.sub(r"_+", "_", sanitized).strip("_")`. -/
def sanitize_table_name (sheet_name : PyStr) : PyStr :=
  let stripped := pyStrip isPySpace sheet_name
  let replaced := (stripped.map (fun c => if isWordChar c then c else 95)).map toLowerCp
  let collapsed := collapseUnderscores replaced
  pyStrip (fun c => c == 95) collapsed

/-- `sanitize_table_name` lifted to Lean strings (used by the registration
model of `complex_duckdb_query`). -/
def sanitizeStr (s : String) : String := pyToStr (sanitize_table_name (strToPy s))

/-- A lowercase word character: what may appear in a sanitized name. -/
def isLowerWordChar (c : Nat) : Bool :=
  decide ((97 ≤ c ∧ c ≤ 122) ∨ (48 ≤ c ∧ c ≤ 57) ∨ c = 95)

/-- No two adjacent underscores. -/
def noDoubleUnderscore : PyStr → Bool
  | a :: b :: rest => (!(a == 95 && b == 95)) && noDoubleUnderscore (b :: rest)
  | _ => true

/-- The invariant of a sanitized table name: lowercase word characters
only, underscore runs collapsed, no leading or trailing underscore. -/
def sanitizedForm (l : PyStr) : Prop :=
  (∀ c ∈ l, isLowerWordChar c = true) ∧ noDoubleUnderscore l = true ∧
    l.head? ≠ some 95 ∧ l.getLast? ≠ some 95

/-! ### Workbook ingestor (`load_preview_data`)

Sheets are read with `dtype=str`, so a cell is `Option String`: `none` is a
missing value (pandas `NaN`), `some v` a textual cell value. -/

/-- The per-cell normalization pipeline applied by `load_preview_data` and
`simple_dataframe_query`: `df.fillna("")`, then
`df.replace(r"^\s*$", None, regex=True)`, then
`df.replace(["nan", "NaN", "null"], None)`. -/
def normalizeCell (cell : Option String) : Option String :=
  let v := cell.getD ""
  if v.data.all (fun c => isPySpace c.toNat) then none
  else if v = "nan" ∨ v = "NaN" ∨ v = "null" then none
  else some v

/-- Outcome of `pd.read_excel` on one sheet, supplied as an oracle:
either the header columns and the (at most 3) sampled raw rows, or the
text of the raised exception. -/
inductive SheetRead
  | ok (columns : List String) (rows : List (List (Option String)))
  | readError (msg : String)
deriving DecidableEq

/-- One entry of `preview_data["sheets_data"]`: either the sheet preview
(columns, normalized sample rows, sanitized table name) or, after a
per-sheet read failure, an error record carrying the exception text. -/
inductive SheetEntry
  | preview (columns : List String) (sampleRows : List (List (Option String)))
      (sanitizedName : String)
  | err (msg : String)
deriving DecidableEq

/-- How one sheet is turned into its `sheets_data` entry inside the
per-sheet `try/except` of `load_preview_data`. -/
def previewEntry (sheet : String × SheetRead) : String × SheetEntry :=
  (sheet.1,
    match sheet.2 with
    | .ok cols rows => .preview cols (rows.map (List.map normalizeCell)) (sanitizeStr sheet.1)
    | .readError m => .err m)

/-- `load_preview_data` from `gemini.py`.  `fileExists` models
`os.path.exists`; `sheets` is the oracle for `get_excel_sheets` together
with each sheet's read outcome.  The empty file name, a missing file and
an empty sheet list raise inside the outer `try`, which converts them to
a single error result; each sheet is otherwise processed inside its own
`try/except`. -/
def load_preview_data (fileExists : Bool) (file_name : String)
    (sheets : List (String × SheetRead)) : Except String (List (String × SheetEntry)) :=
  if file_name = "" then
    .error "Failed to examine Excel structure: File name must be provided"
  else if fileExists = false then
    .error ("Failed to examine Excel structure: File " ++ file_name ++ " not found")
  else if sheets.isEmpty then
    .error "Failed to examine Excel structure: No sheets found in Excel file"
  else
    .ok (sheets.map previewEntry)

/-! ### Analytical engine cache and query executor -/

/-- `get_user_friendly_error_message` from `gemini.py`: the fixed generic
user-facing error string. -/
def user_friendly_message : String :=
  "Maaf, saya mengalami kesulitan memproses pertanyaan Anda. Mohon coba lagi atau formulasikan pertanyaan dengan cara yang berbeda."

/-- One entry of `_REGISTERED_SHEETS_CACHE[file_name]`: the sanitized
table name of a sheet and the three aliases it is registered under. -/
structure RegEntry where
  sanitized : String
  availableAs : List String
deriving DecidableEq

/-- The process-wide mutable state of the executor: the two global cache
dictionaries, a counter minting fresh connection handles (a handle is
fresh exactly when it equals `nextConn` at creation time), a counter of
sheet-registration passes, and the operator log. -/
structure DuckState where
  connCache : List (String × Nat)
  regCache : List (String × List (String × RegEntry))
  nextConn : Nat
  regCount : Nat
  log : List String
deriving DecidableEq

/-- The empty caches at process start. -/
def initialDuckState : DuckState :=
  { connCache := [], regCache := [], nextConn := 0, regCount := 0, log := [] }

/-- `get_or_create_duckdb_connection` from `gemini.py`: reuse the cached
connection only when both the connection and its registration record are
cached; otherwise open a fresh connection, cache it, and report that
registration is needed. -/
def get_or_create_duckdb_connection (file_name : String) (s : DuckState) :
    Nat × Bool × DuckState :=
  match s.connCache.lookup file_name, s.regCache.lookup file_name with
  | some con, some _ => (con, false, s)
  | _, _ =>
    (s.nextConn, true,
      { s with connCache := (file_name, s.nextConn) :: s.connCache,
               nextConn := s.nextConn + 1 })

/-- `clear_duckdb_cache` from `gemini.py`: with a file name, close and
drop that workbook's connection and registration record; with `none`,
tear down every cached workbook. -/
def clear_duckdb_cache (file_name : Option String) (s : DuckState) : DuckState :=
  match file_name with
  | some fn =>
    { s with connCache := s.connCache.filter (fun e => e.1 != fn),
             regCache := s.regCache.filter (fun e => e.1 != fn) }
  | none => { s with connCache := [], regCache := [] }

/-- The registration pass of `complex_duckdb_query`: each sheet is
registered under its sanitized name and, best effort, under the raw sheet
name and a backtick-quoted form; the alias map is stored in
`_REGISTERED_SHEETS_CACHE` and the pass counted. -/
def registerSheets (file_name : String) (sheets : List String) (s : DuckState) : DuckState :=
  let info := sheets.map fun sheet =>
    (sheet,
      { sanitized := sanitizeStr sheet,
        availableAs := [sanitizeStr sheet, sheet, "`" ++ sheet ++ "`"] : RegEntry })
  { s with regCache := (file_name, info) :: s.regCache, regCount := s.regCount + 1 }

/-- Outcome of one `con.execute(query).fetchdf()` attempt, supplied as an
oracle indexed by the attempt number: a tabular result or the text of the
raised exception. -/
inductive ExecOutcome
  | ok (columns : List String) (rows : List (List (Option String)))
  | raise (msg : String)

/-- Python `str.lower()` over a Lean string (ASCII range). -/
def lowerStr (s : String) : PyStr := (strToPy s).map toLowerCp

/-- List containment of a pattern at the head. -/
def beginsWith : PyStr → PyStr → Bool
  | [], _ => true
  | _ :: _, [] => false
  | p :: ps, c :: cs => p == c && beginsWith ps cs

/-- Substring test over code-point lists (Python `in` on strings). -/
def hasSubstring (p : PyStr) : PyStr → Bool
  | [] => beginsWith p []
  | c :: cs => beginsWith p (c :: cs) || hasSubstring p cs

/-- The stale-connection classifier of `complex_duckdb_query`:
`"closed" in str(exec_error).lower() or "connection" in str(exec_error).lower()`. -/
def isStaleError (msg : String) : Bool :=
  hasSubstring (strToPy "closed") (lowerStr msg) ||
    hasSubstring (strToPy "connection") (lowerStr msg)

/-- What `complex_duckdb_query` returns to its caller: a normalized
result, or the error dictionary `{"error": errMsg, "debug_info": ...}`
whose debug info carries the query text but not the exception text, or
exhaustion of the step budget of this model (the source recursion has no
such budget). -/
inductive QueryOutcome
  | success (columns : List String) (rows : List (List (Option String)))
  | failure (errMsg : String) (debugQuery : String)
  | outOfFuel
deriving DecidableEq

/-- `complex_duckdb_query` from `gemini.py`.  `exec` is the engine
oracle; `attempts` counts `con.execute` attempts already made (the third
component of the result is the total attempt count).  On a stale
connection error the cache entry is cleared and the whole call recurses;
`fuel` bounds that recursion so the model is total — the source has no
bound.  Registration reads are modeled as succeeding; a terminal
execution failure appends the raw diagnostic to the operator log and
returns the generic user-facing message. -/
def complex_duckdb_query :
    Nat → (Nat → ExecOutcome) → Nat → String → List String → String → DuckState →
      QueryOutcome × DuckState × Nat
  | 0, _, attempts, _, _, _, s => (.outOfFuel, s, attempts)
  | fuel + 1, exec, attempts, file_name, sheets, query, s =>
    let acq := get_or_create_duckdb_connection file_name s
    let s2 := if acq.2.1 then registerSheets file_name sheets acq.2.2 else acq.2.2
    match exec attempts with
    | .ok cols rows =>
      if rows.isEmpty then (.success [] [], s2, attempts + 1)
      else (.success cols rows, s2, attempts + 1)
    | .raise m =>
      if isStaleError m then
        complex_duckdb_query fuel exec (attempts + 1) file_name sheets query
          (clear_duckdb_cache (some file_name) s2)
      else
        (.failure user_friendly_message query,
          { s2 with log := s2.log ++ ["DuckDB query error: " ++ m] }, attempts + 1)

/-- A benign engine outcome: a result, or an error the stale-connection
classifier does not match. -/
def NotStale : ExecOutcome → Prop
  | .ok _ _ => True
  | .raise m => isStaleError m = false

/-- An engine oracle whose every attempt raises a closed-connection
error. -/
def staleOracle : Nat → ExecOutcome := fun _ => .raise "connection closed"

/-- An engine oracle whose every attempt succeeds with one row. -/
def okOracle : Nat → ExecOutcome := fun _ => .ok ["c"] [[some "1"]]

/-! ### Restricted expression environment (`simple_dataframe_query`) -/

/-- The Python values visible to the evaluated expression. -/
inductive PyVal
  | dataframe
  | pandasModule
  | pyDict (entries : List (String × PyVal))

/-- `safe_globals = {"df": df, "pd": pd, "__builtins__": {}}` from
`simple_dataframe_query`. -/
def safe_globals : List (String × PyVal) :=
  [("df", .dataframe), ("pd", .pandasModule), ("__builtins__", .pyDict [])]

/-- The empty locals dictionary passed to `eval(query, safe_globals, {})`. -/
def evalLocals : List (String × PyVal) := []

/-- CPython name resolution inside `eval`: locals, then globals, then the
`__builtins__` mapping of the globals dictionary. -/
def lookupName (globals locals : List (String × PyVal)) (n : String) : Option PyVal :=
  match locals.lookup n with
  | some v => some v
  | none =>
    match globals.lookup n with
    | some v => some v
    | none =>
      match globals.lookup "__builtins__" with
      | some (.pyDict bs) => bs.lookup n
      | _ => none

/-! ### Agent orchestrator state machine -/

/-- One response of the reasoning engine to a `generate_query` turn:
a `load_preview_data` tool call (with the error of the preview result, if
any), an executable-query tool call (`simple_dataframe_query` or
`complex_duckdb_query`, with the error of the query result, if any), or a
plain-text response with no tool call. -/
inductive EngineResponse
  | previewCall (err : Option String)
  | execCall (err : Option String)
  | plainText
deriving DecidableEq

/-- The `AgentState` of `gemini.py`, restricted to the fields the nodes
and routers read or write. `preview_data` records whether a preview
result dictionary is stored and whether it was an error; `query_result`
is `some none` for a result dictionary with a `"result"` key and
`some (some m)` for one with an `"error"` key. -/
structure OrchState where
  user_input : String
  file_name : String
  preview_data : Option Bool
  query_result : Option (Option String)
  final_analysis : Option String
  error : Option String
  iterations_count : Nat
  workflow_stage : String
deriving DecidableEq

/-- The initial state built by `run_excel_analysis`. -/
def orchInitialState (file_name user_input : String) : OrchState :=
  { user_input := user_input, file_name := file_name, preview_data := none,
    query_result := none, final_analysis := none, error := none,
    iterations_count := 0, workflow_stage := "initial" }

/-- `generate_and_execute_query_node` from `gemini.py`: raise (caught,
generic error) on a missing file name or question, otherwise increment
the iteration counter and dispatch on the engine's response.  A preview
call stores the preview and either loops the stage back to
`generate_query` or records the preview error; an executable call stores
the query result and marks the stage `analysis_ready` or `error` (the
shared `execute_function` also copies a result error into
`state["error"]`); plain text records the generic error. -/
def generate_and_execute_query_node (resp : EngineResponse) (s : OrchState) : OrchState :=
  if s.file_name = "" ∨ s.user_input = "" then
    { s with error := some user_friendly_message }
  else
    let s1 := { s with iterations_count := s.iterations_count + 1 }
    match resp with
    | .previewCall none =>
      { s1 with preview_data := some true, workflow_stage := "generate_query" }
    | .previewCall (some m) =>
      { s1 with preview_data := some false, error := some m, workflow_stage := "error" }
    | .execCall none =>
      { s1 with query_result := some none, workflow_stage := "analysis_ready" }
    | .execCall (some m) =>
      { s1 with query_result := some (some m), error := some m, workflow_stage := "error" }
    | .plainText => { s1 with error := some user_friendly_message }

/-- `analysis_generation_node` from `gemini.py`: skip when an error is
recorded or no query result is present; otherwise store the summary text
(supplied by the summarizer oracle) and mark the stage `completed`. -/
def analysis_generation_node (analysisText : String) (s : OrchState) : OrchState :=
  if s.error.isSome ∨ s.query_result = none then s
  else { s with final_analysis := some analysisText, workflow_stage := "completed" }

/-- `should_continue_to_analysis` from `gemini.py`, returning the edge
label together with the state it may mutate. -/
def should_continue_to_analysis (s : OrchState) : String × OrchState :=
  if s.error.isSome then ("END", s)
  else
    match s.query_result with
    | some (some _) => ("END", { s with error := some user_friendly_message })
    | some none => ("analyze", s)
    | none =>
      if s.workflow_stage = "generate_query" then ("generate", s)
      else ("END", { s with error := some user_friendly_message })

/-- `should_continue_after_analysis` from `gemini.py`: end on an error or
on completion; end with the generic error once the iteration counter
exceeds 10; otherwise loop back. -/
def should_continue_after_analysis (s : OrchState) : String × OrchState :=
  if s.error.isSome then ("END", s)
  else if s.workflow_stage = "completed" then ("END", s)
  else if 10 < s.iterations_count then ("END", { s with error := some user_friendly_message })
  else ("continue", s)

/-- The node of the compiled LangGraph workflow the invocation is at. -/
inductive WorkNode
  | generate_query
  | generate_analysis
  | terminated
deriving DecidableEq

/-- One super-step of the compiled workflow: run the node the invocation
is at, then follow the conditional edge chosen by the router.  The engine
oracle is indexed by the number of engine calls already made, which
equals `iterations_count` on entry to `generate_query`. -/
def workflow_step (oracle : Nat → EngineResponse) (analysisText : String) :
    WorkNode × OrchState → WorkNode × OrchState
  | (.generate_query, s) =>
    let s1 := generate_and_execute_query_node (oracle s.iterations_count) s
    let routed := should_continue_to_analysis s1
    if routed.1 = "generate" then (.generate_query, routed.2)
    else if routed.1 = "analyze" then (.generate_analysis, routed.2)
    else (.terminated, routed.2)
  | (.generate_analysis, s) =>
    let s1 := analysis_generation_node analysisText s
    let routed := should_continue_after_analysis s1
    if routed.1 = "continue" then (.generate_query, routed.2)
    else (.terminated, routed.2)
  | (.terminated, s) => (.terminated, s)

/-- The workflow after `n` super-steps from the entry point
`generate_query`, for a fixed workbook and question. -/
def run_workflow (oracle : Nat → EngineResponse) (analysisText : String)
    (file_name user_input : String) : Nat → WorkNode × OrchState
  | 0 => (.generate_query, orchInitialState file_name user_input)
  | n + 1 => workflow_step oracle analysisText (run_workflow oracle analysisText file_name user_input n)

/-- The reasoning engine that answers every turn with a successful
`load_preview_data` call. -/
def allPreviewOracle : Nat → EngineResponse := fun _ => .previewCall none

/-- The orchestrator state while the all-preview engine keeps the
workflow looping in `generate_query`. -/
def previewLoopState (file_name user_input : String) : Nat → OrchState
  | 0 => orchInitialState file_name user_input
  | n + 1 =>
    { user_input := user_input, file_name := file_name, preview_data := some true,
      query_result := none, final_analysis := none, error := none,
      iterations_count := n + 1, workflow_stage := "generate_query" }

/-- The error a `generate_query` turn records when the engine's response
is an error response: the preview result's error for a failed preview
load, the query result's error for a failed executable call, the generic
message for a plain-text protocol violation; `none` for the two
non-error responses. -/
def responseError : EngineResponse → Option String
  | .previewCall (some m) => some m
  | .execCall (some m) => some m
  | .plainText => some user_friendly_message
  | _ => none


/-! ### Character and list helper lemmas -/

theorem replChar_lowerWord (c : Nat) :
    isLowerWordChar (toLowerCp (if isWordChar c then c else 95)) = true := by
  by_cases h : isWordChar c = true
  · simp only [h, if_true]
    simp only [isWordChar, decide_eq_true_eq] at h
    simp only [isLowerWordChar, toLowerCp, decide_eq_true_eq]
    split <;> omega
  · simp only [h, if_false]
    simp [isLowerWordChar, toLowerCp]

theorem lowerWord_not_space {c : Nat} (h : isLowerWordChar c = true) : isPySpace c = false := by
  simp only [isLowerWordChar, decide_eq_true_eq] at h
  simp only [isPySpace, decide_eq_false_iff_not]
  omega

theorem lowerWord_word {c : Nat} (h : isLowerWordChar c = true) : isWordChar c = true := by
  simp only [isLowerWordChar, decide_eq_true_eq] at h
  simp only [isWordChar, decide_eq_true_eq]
  omega

theorem lowerWord_toLower {c : Nat} (h : isLowerWordChar c = true) : toLowerCp c = c := by
  simp only [isLowerWordChar, decide_eq_true_eq] at h
  simp only [toLowerCp]
  split <;> omega

theorem mem_head? {α : Type} {l : List α} {a : α} (h : l.head? = some a) : a ∈ l := by
  cases l with
  | nil => simp at h
  | cons b t => simp at h; simp [h]

theorem mem_getLast? {α : Type} {l : List α} {a : α} (h : l.getLast? = some a) : a ∈ l := by
  induction l with
  | nil => simp at h
  | cons b t ih =>
    cases t with
    | nil => simp at h; simp [h]
    | cons c r =>
      rw [List.getLast?_cons_cons] at h
      exact List.mem_cons_of_mem _ (ih h)

theorem mem_dropWhile {α : Type} {p : α → Bool} {l : List α} {a : α}
    (h : a ∈ l.dropWhile p) : a ∈ l := by
  induction l with
  | nil => simp [List.dropWhile] at h
  | cons b t ih =>
    rw [List.dropWhile_cons] at h
    by_cases hb : p b = true
    · simp [hb] at h; exact List.mem_cons_of_mem _ (ih h)
    · simp [hb] at h
      rcases h with h | h
      · simp [h]
      · exact List.mem_cons_of_mem _ h

theorem dropWhile_eq_self_of_head {α : Type} {p : α → Bool} {l : List α}
    (h : ∀ a, l.head? = some a → p a = false) : l.dropWhile p = l := by
  cases l with
  | nil => rfl
  | cons b t =>
    rw [List.dropWhile_cons, h b rfl]
    simp

theorem head?_dropWhile_not {α : Type} {p : α → Bool} {l : List α} {a : α}
    (h : (l.dropWhile p).head? = some a) : p a = false := by
  induction l with
  | nil => simp [List.dropWhile] at h
  | cons b t ih =>
    rw [List.dropWhile_cons] at h
    by_cases hb : p b = true
    · simp [hb] at h; exact ih h
    · simp [hb] at h
      rw [← h]
      simp [hb]

theorem rstripIf_head? {p : Nat → Bool} (l : PyStr) :
    rstripIf p l = [] ∨ (rstripIf p l).head? = l.head? := by
  cases l with
  | nil => left; rfl
  | cons a t =>
    rw [rstripIf]
    split
    · left; rfl
    · right; rfl

theorem mem_rstripIf {p : Nat → Bool} {l : PyStr} {a : Nat}
    (h : a ∈ rstripIf p l) : a ∈ l := by
  induction l with
  | nil => simp [rstripIf] at h
  | cons b t ih =>
    rw [rstripIf] at h
    split at h
    · simp at h
    · rcases List.mem_cons.mp h with h | h
      · simp [h]
      · exact List.mem_cons_of_mem _ (ih h)

theorem getLast?_rstripIf {p : Nat → Bool} {l : PyStr} {a : Nat}
    (h : (rstripIf p l).getLast? = some a) : p a = false := by
  induction l with
  | nil => simp [rstripIf] at h
  | cons b t ih =>
    rw [rstripIf] at h
    split at h
    · simp at h
    · rename_i hcond
      rcases hr : rstripIf p t with _ | ⟨c, r⟩
      · rw [hr] at h hcond
        simp at h hcond
        rw [← h]
        simpa using hcond
      · rw [hr] at h
        rw [List.getLast?_cons_cons] at h
        rw [← hr] at h
        exact ih h

theorem rstripIf_eq_self {p : Nat → Bool} {l : PyStr}
    (h : ∀ a, l.getLast? = some a → p a = false) : rstripIf p l = l := by
  induction l with
  | nil => rfl
  | cons b t ih =>
    rw [rstripIf]
    cases t with
    | nil =>
      have := h b (by simp)
      simp [rstripIf, this]
    | cons c r =>
      have ht : rstripIf p (c :: r) = c :: r := by
        apply ih
        intro a ha
        apply h
        rw [List.getLast?_cons_cons]
        exact ha
      rw [ht]
      simp

theorem noDouble_cons_iff {a : Nat} {l : PyStr} :
    noDoubleUnderscore (a :: l) = true ↔
      noDoubleUnderscore l = true ∧ ¬(a = 95 ∧ l.head? = some 95) := by
  cases l with
  | nil => simp [noDoubleUnderscore]
  | cons b t =>
    rw [noDoubleUnderscore]
    simp only [Bool.and_eq_true, Bool.not_eq_true']
    constructor
    · rintro ⟨h1, h2⟩
      refine ⟨h2, ?_⟩
      rintro ⟨ha, hb⟩
      simp at hb
      subst ha hb
      simp at h1
    · rintro ⟨h1, h2⟩
      refine ⟨?_, h1⟩
      by_cases ha : a = 95
      · have : b ≠ 95 := by
          intro hb
          exact h2 ⟨ha, by simp [hb]⟩
        subst ha
        simp [this]
      · simp [ha]

theorem noDouble_tail {a : Nat} {l : PyStr}
    (h : noDoubleUnderscore (a :: l) = true) : noDoubleUnderscore l = true :=
  (noDouble_cons_iff.mp h).1

theorem noDouble_dropWhile {p : Nat → Bool} {l : PyStr}
    (h : noDoubleUnderscore l = true) : noDoubleUnderscore (l.dropWhile p) = true := by
  induction l with
  | nil => exact h
  | cons b t ih =>
    rw [List.dropWhile_cons]
    split
    · exact ih (noDouble_tail h)
    · exact h

theorem noDouble_rstripIf {p : Nat → Bool} {l : PyStr}
    (h : noDoubleUnderscore l = true) : noDoubleUnderscore (rstripIf p l) = true := by
  induction l with
  | nil => simp [rstripIf, noDoubleUnderscore]
  | cons b t ih =>
    rw [rstripIf]
    split
    · simp [noDoubleUnderscore]
    · have ht := ih (noDouble_tail h)
      rw [noDouble_cons_iff]
      refine ⟨ht, ?_⟩
      rintro ⟨hb, hh⟩
      rcases rstripIf_head? (p := p) t with he | he
      · rw [he] at hh; simp at hh
      · rw [he] at hh
        exact (noDouble_cons_iff.mp h).2 ⟨hb, hh⟩

theorem mem_collapseAux {l : PyStr} {b : Bool} {a : Nat}
    (h : a ∈ collapseAux b l) : a ∈ l := by
  induction l generalizing b with
  | nil => simp [collapseAux] at h
  | cons c t ih =>
    rw [collapseAux] at h
    by_cases hc : (c == 95) = true
    · rw [if_pos hc] at h
      split at h
      · exact List.mem_cons_of_mem _ (ih h)
      · rcases List.mem_cons.mp h with h | h
        · simp at hc; simp [h, hc]
        · exact List.mem_cons_of_mem _ (ih h)
    · rw [if_neg hc] at h
      rcases List.mem_cons.mp h with h | h
      · simp [h]
      · exact List.mem_cons_of_mem _ (ih h)

theorem collapse_good (l : PyStr) :
    noDoubleUnderscore (collapseAux false l) = true ∧
      noDoubleUnderscore (collapseAux true l) = true ∧
      (collapseAux true l).head? ≠ some 95 := by
  induction l with
  | nil => simp [collapseAux, noDoubleUnderscore]
  | cons c t ih =>
    obtain ⟨hf, ht, hh⟩ := ih
    by_cases hc : c = 95
    · subst hc
      have e1 : collapseAux false (95 :: t) = 95 :: collapseAux true t := by
        rw [collapseAux]; simp
      have e2 : collapseAux true (95 :: t) = collapseAux true t := by
        rw [collapseAux]; simp
      rw [e1, e2]
      refine ⟨?_, ht, hh⟩
      rw [noDouble_cons_iff]
      refine ⟨ht, ?_⟩
      rintro ⟨-, hcontra⟩
      exact hh hcontra
    · have e1 : collapseAux false (c :: t) = c :: collapseAux false t := by
        rw [collapseAux, if_neg (by simp [hc])]
      have e2 : collapseAux true (c :: t) = c :: collapseAux false t := by
        rw [collapseAux, if_neg (by simp [hc])]
      rw [e1, e2]
      have hcons : noDoubleUnderscore (c :: collapseAux false t) = true := by
        rw [noDouble_cons_iff]
        exact ⟨hf, fun hx => hc hx.1⟩
      refine ⟨hcons, hcons, ?_⟩
      simp [hc]

theorem collapse_id {l : PyStr} (h : noDoubleUnderscore l = true) :
    collapseAux false l = l ∧ (l.head? ≠ some 95 → collapseAux true l = l) := by
  induction l with
  | nil => simp [collapseAux]
  | cons c t ih =>
    obtain ⟨hnd, hadj⟩ := noDouble_cons_iff.mp h
    obtain ⟨ihf, iht⟩ := ih hnd
    by_cases hc : c = 95
    · subst hc
      have hth : t.head? ≠ some 95 := by
        intro hx
        exact hadj ⟨rfl, hx⟩
      have e1 : collapseAux false (95 :: t) = 95 :: collapseAux true t := by
        rw [collapseAux]; simp
      rw [e1, iht hth]
      refine ⟨rfl, ?_⟩
      intro hcontra
      simp at hcontra
    · have e1 : collapseAux false (c :: t) = c :: collapseAux false t := by
        rw [collapseAux, if_neg (by simp [hc])]
      have e2 : collapseAux true (c :: t) = c :: collapseAux false t := by
        rw [collapseAux, if_neg (by simp [hc])]
      rw [e1, e2, ihf]
      exact ⟨rfl, fun _ => rfl⟩

theorem mem_pyStrip {p : Nat → Bool} {l : PyStr} {a : Nat}
    (h : a ∈ pyStrip p l) : a ∈ l :=
  mem_dropWhile (mem_rstripIf h)

theorem head?_pyStrip_not {p : Nat → Bool} {l : PyStr} {a : Nat}
    (h : (pyStrip p l).head? = some a) : p a = false := by
  rcases rstripIf_head? (p := p) (l.dropWhile p) with he | he
  · rw [pyStrip, he] at h; simp at h
  · rw [pyStrip, he] at h
    exact head?_dropWhile_not h

theorem getLast?_pyStrip_not {p : Nat → Bool} {l : PyStr} {a : Nat}
    (h : (pyStrip p l).getLast? = some a) : p a = false :=
  getLast?_rstripIf h

theorem noDouble_pyStrip {p : Nat → Bool} {l : PyStr}
    (h : noDoubleUnderscore l = true) : noDoubleUnderscore (pyStrip p l) = true :=
  noDouble_rstripIf (noDouble_dropWhile h)

theorem pyStrip_eq_self_of_ends {p : Nat → Bool} {l : PyStr}
    (h1 : ∀ a, l.head? = some a → p a = false)
    (h2 : ∀ a, l.getLast? = some a → p a = false) : pyStrip p l = l := by
  rw [pyStrip, dropWhile_eq_self_of_head h1]
  exact rstripIf_eq_self h2

theorem pyStrip_eq_self {p : Nat → Bool} {l : PyStr}
    (h : ∀ a ∈ l, p a = false) : pyStrip p l = l :=
  pyStrip_eq_self_of_ends (fun a ha => h a (mem_head? ha))
    (fun a ha => h a (mem_getLast? ha))

theorem map_self_of {α : Type} {f : α → α} {l : List α}
    (h : ∀ a ∈ l, f a = a) : l.map f = l := by
  induction l with
  | nil => rfl
  | cons b t ih =>
    rw [List.map_cons, h b (by simp), ih (fun a ha => h a (List.mem_cons_of_mem _ ha))]

theorem mem_sanitize_lowerWord {l : PyStr} {c : Nat}
    (h : c ∈ sanitize_table_name l) : isLowerWordChar c = true := by
  rw [sanitize_table_name] at h
  have h2 := mem_collapseAux (mem_pyStrip h)
  rw [List.mem_map] at h2
  obtain ⟨d, hd, hdc⟩ := h2
  rw [List.mem_map] at hd
  obtain ⟨e, _, hed⟩ := hd
  rw [← hdc, ← hed]
  exact replChar_lowerWord e

theorem sanitize_sanitizedForm (l : PyStr) : sanitizedForm (sanitize_table_name l) := by
  refine ⟨fun c hc => mem_sanitize_lowerWord hc, ?_, ?_, ?_⟩
  · rw [sanitize_table_name]
    exact noDouble_pyStrip (collapse_good _).1
  · intro hh
    have := head?_pyStrip_not (p := fun c => c == 95) hh
    simp at this
  · intro hh
    have := getLast?_pyStrip_not (p := fun c => c == 95) hh
    simp at this

theorem sanitize_fix {l : PyStr} (h : sanitizedForm l) : sanitize_table_name l = l := by
  obtain ⟨hchars, hnd, hhead, hlast⟩ := h
  rw [sanitize_table_name]
  have hstrip : pyStrip isPySpace l = l :=
    pyStrip_eq_self (fun a ha => lowerWord_not_space (hchars a ha))
  rw [hstrip]
  have hrepl : l.map (fun c => if isWordChar c then c else 95) = l :=
    map_self_of (fun a ha => by rw [lowerWord_word (hchars a ha)]; simp)
  rw [hrepl]
  have hlow : l.map toLowerCp = l :=
    map_self_of (fun a ha => lowerWord_toLower (hchars a ha))
  rw [hlow]
  have hcoll : collapseUnderscores l = l := by
    rw [collapseUnderscores]
    exact (collapse_id hnd).1
  rw [hcoll]
  apply pyStrip_eq_self_of_ends
  · intro a ha
    simp only [beq_eq_false_iff_ne, ne_eq]
    intro h95
    subst h95
    exact hhead ha
  · intro a ha
    simp only [beq_eq_false_iff_ne, ne_eq]
    intro h95
    subst h95
    exact hlast ha

/-! ### Claims C5 and C10: table-name sanitization -/

theorem dropWhile_eq_nil_of_all {α : Type} {p : α → Bool} {l : List α}
    (h : ∀ a ∈ l, p a = true) : l.dropWhile p = [] := by
  induction l with
  | nil => rfl
  | cons b t ih =>
    rw [List.dropWhile_cons, h b (by simp)]
    simp only [if_true]
    exact ih (fun a ha => h a (List.mem_cons_of_mem _ ha))

theorem sanitize_of_no_word {l : PyStr}
    (h : ∀ c ∈ l, isWordChar c = false) : sanitize_table_name l = [] := by
  rw [sanitize_table_name]
  have hall : ∀ c ∈ collapseUnderscores
      (((pyStrip isPySpace l).map (fun c => if isWordChar c then c else 95)).map toLowerCp),
      (fun c => c == 95) c = true := by
    intro c hc
    have h2 := mem_collapseAux hc
    rw [List.mem_map] at h2
    obtain ⟨d, hd, hdc⟩ := h2
    rw [List.mem_map] at hd
    obtain ⟨e, he, hed⟩ := hd
    have hw : isWordChar e = false := h e (mem_pyStrip he)
    rw [← hdc, ← hed, hw]
    simp [toLowerCp]
  rw [pyStrip, dropWhile_eq_nil_of_all hall]
  rfl

/-- Claim C5: `sanitize_table_name` is deterministic (it is a function) and
idempotent, its output is made of lowercase word characters with underscore
runs collapsed and no leading or trailing underscore, and it maps
`"Financial Performance"` to `"financial_performance"` and `"  A--B  "` to
`"a_b"`. -/
theorem sanitize_table_name_idempotent :
    (∀ l : PyStr, sanitize_table_name (sanitize_table_name l) = sanitize_table_name l) ∧
      sanitize_table_name (strToPy "Financial Performance") = strToPy "financial_performance" ∧
      sanitize_table_name (strToPy "  A--B  ") = strToPy "a_b" ∧
      ∀ l : PyStr, sanitizedForm (sanitize_table_name l) :=
  ⟨fun l => sanitize_fix (sanitize_sanitizedForm l), by decide, by decide,
    sanitize_sanitizedForm⟩

/-- Claim C10: a sheet name with no word characters sanitizes to the empty
string, so distinct such sheets (for example `"---"` and `"!!!"`) collide on
the same registered table name. -/
theorem sanitize_table_name_no_word_collision :
    (∀ l : PyStr, (∀ c ∈ l, isWordChar c = false) → sanitize_table_name l = []) ∧
      sanitize_table_name (strToPy "---") = [] ∧
      sanitize_table_name (strToPy "!!!") = [] ∧
      sanitize_table_name (strToPy "---") = sanitize_table_name (strToPy "!!!") :=
  ⟨fun _ h => sanitize_of_no_word h, by decide, by decide, by decide⟩

/-- Witness for C10: the hypothesis of the universally quantified part is
discharged at the concrete sheet name `"---"`. -/
theorem sanitize_table_name_no_word_collision_witness :
    (∀ c ∈ strToPy "---", isWordChar c = false) ∧ sanitize_table_name (strToPy "---") = [] :=
  ⟨by decide, sanitize_table_name_no_word_collision.1 (strToPy "---") (by decide)⟩

/-! ### Claims C6 and C7: workbook ingestor -/

/-- Counterexample for C6: a cell holding the dash token is not normalized
to the absence marker by `load_preview_data`; it survives as `"-"`. -/
theorem normalizeCell_dash_counterexample :
    normalizeCell (some "-") = some "-" ∧ normalizeCell (some "-") ≠ none := by
  constructor
  · rfl
  · decide

/-- Claim C6 (amended): preview cells are read as text and a cell is
normalized to the absence marker exactly when it is missing, blank
(empty or whitespace-only), or equal to one of the tokens `"nan"`,
`"NaN"`, `"null"`; every other cell — the dash token `"-"` included — is
passed through unchanged. -/
theorem normalizeCell_characterization :
    normalizeCell none = none ∧
      (∀ v : String, normalizeCell (some v) = none ↔
        ((∀ c ∈ v.data, isPySpace c.toNat = true) ∨ v = "nan" ∨ v = "NaN" ∨ v = "null")) ∧
      (∀ v : String, normalizeCell (some v) = none ∨ normalizeCell (some v) = some v) := by
  refine ⟨by decide, ?_, ?_⟩
  · intro v
    constructor
    · intro h
      rw [normalizeCell] at h
      simp only [Option.getD_some] at h
      split_ifs at h with h1 h2
      · left
        simpa [List.all_eq_true] using h1
      · right
        exact h2
    · intro h
      rw [normalizeCell]
      simp only [Option.getD_some]
      split_ifs with h1 h2
      · rfl
      · rfl
      · exfalso
        rcases h with h | h
        · exact h1 (by simpa [List.all_eq_true] using h)
        · exact h2 h
  · intro v
    rw [normalizeCell]
    simp only [Option.getD_some]
    split_ifs <;> simp

/-- Claim C7: the whole preview fails exactly when the file name is
missing, the file is absent, or the workbook has no sheets; otherwise a
read failure on one sheet yields an error entry for that sheet alone
while every other sheet's preview entry is still produced. -/
theorem load_preview_data_isolated_errors :
    (∀ (fe : Bool) (fn : String) (sheets : List (String × SheetRead)),
        (∃ m, load_preview_data fe fn sheets = .error m) ↔
          (fn = "" ∨ fe = false ∨ sheets = [])) ∧
      (∀ (fn : String) (pre post : List (String × SheetRead)) (name m : String),
        fn ≠ "" →
        load_preview_data true fn (pre ++ (name, .readError m) :: post) =
          .ok (pre.map previewEntry ++ (name, SheetEntry.err m) :: post.map previewEntry)) := by
  constructor
  · intro fe fn sheets
    rw [load_preview_data]
    split_ifs with h1 h2 h3
    · simp [h1]
    · simp [h1, h2]
    · simp only [List.isEmpty_iff] at h3
      simp [h1, h2, h3]
    · simp only [List.isEmpty_iff] at h3
      constructor
      · rintro ⟨m, hm⟩
        simp at hm
      · rintro (h | h | h)
        · exact absurd h h1
        · exact absurd h h2
        · exact absurd h h3
  · intro fn pre post name m hfn
    rw [load_preview_data, if_neg hfn, if_neg (by simp)]
    rw [if_neg (by simp [List.isEmpty_iff])]
    rw [List.map_append, List.map_cons]
    rfl

/-- Witness for C7: a workbook with one readable sheet and one failing
sheet produces a preview for the first and an isolated error entry for
the second. -/
theorem load_preview_data_isolated_errors_witness :
    ("wb.xlsx" : String) ≠ "" ∧
      load_preview_data true "wb.xlsx"
          [("Good", .ok ["c"] [[some "1"]]), ("Bad", .readError "boom")] =
        .ok [("Good", SheetEntry.preview ["c"] [[some "1"]] "good"),
             ("Bad", SheetEntry.err "boom")] := by
  refine ⟨by decide, ?_⟩
  have h := load_preview_data_isolated_errors.2 "wb.xlsx"
    [("Good", .ok ["c"] [[some "1"]])] [] "Bad" "boom" (by decide)
  simpa [previewEntry, normalizeCell, sanitizeStr] using h

/-! ### Claim C4: restricted expression environment -/

/-- Counterexample for C4: besides `df` and `pd`, the name `__builtins__`
also resolves inside the evaluated expression (to the empty dictionary the
source installs to disable builtins), so more than the two claimed names
are in scope. -/
theorem lookupName_builtins_counterexample :
    lookupName safe_globals evalLocals "__builtins__" = some (PyVal.pyDict []) ∧
      ("__builtins__" : String) ≠ "df" ∧ ("__builtins__" : String) ≠ "pd" := by
  refine ⟨rfl, by decide, by decide⟩

/-- Claim C4 (amended): the expression passed to `simple_dataframe_query`
is evaluated in an environment in which exactly three names resolve — `df`
to the sheet's dataframe, `pd` to the pandas handle, and `__builtins__` to
an empty mapping — so no builtin function and no other name, function or
module is reachable by name resolution. -/
theorem lookupName_characterization :
    ∀ (n : String) (v : PyVal), lookupName safe_globals evalLocals n = some v ↔
      ((n = "df" ∧ v = PyVal.dataframe) ∨ (n = "pd" ∧ v = PyVal.pandasModule) ∨
        (n = "__builtins__" ∧ v = PyVal.pyDict [])) := by
  intro n v
  by_cases hdf : n = "df"
  · subst hdf
    constructor
    · intro h
      left
      refine ⟨rfl, ?_⟩
      have : some v = some PyVal.dataframe := by rw [← h]; rfl
      exact Option.some.inj this
    · rintro (⟨-, hv⟩ | ⟨hn, -⟩ | ⟨hn, -⟩)
      · rw [hv]; rfl
      · simp at hn
      · simp at hn
  · by_cases hpd : n = "pd"
    · subst hpd
      constructor
      · intro h
        right; left
        refine ⟨rfl, ?_⟩
        have : some v = some PyVal.pandasModule := by rw [← h]; rfl
        exact Option.some.inj this
      · rintro (⟨hn, -⟩ | ⟨-, hv⟩ | ⟨hn, -⟩)
        · simp at hn
        · rw [hv]; rfl
        · simp at hn
    · by_cases hb : n = "__builtins__"
      · subst hb
        constructor
        · intro h
          right; right
          refine ⟨rfl, ?_⟩
          have : some v = some (PyVal.pyDict []) := by rw [← h]; rfl
          exact Option.some.inj this
        · rintro (⟨hn, -⟩ | ⟨hn, -⟩ | ⟨-, hv⟩)
          · simp at hn
          · simp at hn
          · rw [hv]; rfl
      · constructor
        · intro h
          exfalso
          rw [lookupName, evalLocals, safe_globals] at h
          simp only [List.lookup, List.lookup_nil] at h
          rw [show (n == "df") = false from by simpa using hdf] at h
          rw [show (n == "pd") = false from by simpa using hpd] at h
          rw [show (n == "__builtins__") = false from by simpa using hb] at h
          exact Option.noConfusion h
        · rintro (⟨hn, -⟩ | ⟨hn, -⟩ | ⟨hn, -⟩)
          · exact absurd hn hdf
          · exact absurd hn hpd
          · exact absurd hn hb

/-! ### Claims C2, C3 and C8: connection cache and query executor -/

theorem isStale_closed : isStaleError "connection closed" = true := by decide

theorem cdq_stale_aux :
    ∀ (fuel attempts : Nat) (fn : String) (sheets : List String) (q : String) (s : DuckState),
      (complex_duckdb_query fuel staleOracle attempts fn sheets q s).1 = .outOfFuel ∧
        (complex_duckdb_query fuel staleOracle attempts fn sheets q s).2.2 = attempts + fuel := by
  intro fuel
  induction fuel with
  | zero => intro attempts fn sheets q s; exact ⟨rfl, rfl⟩
  | succ n ih =>
    intro attempts fn sheets q s
    simp only [complex_duckdb_query, staleOracle, isStale_closed, if_true]
    obtain ⟨h1, h2⟩ := ih (attempts + 1) fn sheets q
      (clear_duckdb_cache (some fn)
        (if (get_or_create_duckdb_connection fn s).2.1 then
          registerSheets fn sheets (get_or_create_duckdb_connection fn s).2.2
        else (get_or_create_duckdb_connection fn s).2.2))
    refine ⟨h1, ?_⟩
    rw [h2]
    omega

/-- Claim C2, evaluated at the failing input: an engine whose every
execution attempt raises a closed-connection error drives
`complex_duckdb_query` through one clear-and-retry recursion per attempt
— for every recursion budget `fuel` the model performs `fuel` execution
attempts without ever returning, so the source recursion is unbounded and
a third (and further) attempt is reachable, contradicting the claimed
two-attempt limit. -/
theorem complex_duckdb_query_unbounded_retry :
    ∀ fuel : Nat,
      (complex_duckdb_query fuel staleOracle 0 "data.xlsx" ["Sheet1"] "SELECT 1"
          initialDuckState).2.2 = fuel ∧
        (complex_duckdb_query fuel staleOracle 0 "data.xlsx" ["Sheet1"] "SELECT 1"
            initialDuckState).1 = .outOfFuel := by
  intro fuel
  obtain ⟨h1, h2⟩ := cdq_stale_aux fuel 0 "data.xlsx" ["Sheet1"] "SELECT 1" initialDuckState
  exact ⟨by simpa using h2, h1⟩

theorem get_or_create_false_iff (fn : String) (s : DuckState) :
    (get_or_create_duckdb_connection fn s).2.1 = false ↔
      (s.connCache.lookup fn).isSome ∧ (s.regCache.lookup fn).isSome := by
  rw [get_or_create_duckdb_connection]
  rcases hc : s.connCache.lookup fn with _ | c
  · simp
  · rcases hr : s.regCache.lookup fn with _ | r
    · simp
    · simp

theorem get_or_create_fresh (fn : String) (s : DuckState)
    (h : (get_or_create_duckdb_connection fn s).2.1 = true) :
    (get_or_create_duckdb_connection fn s).1 = s.nextConn ∧
      (get_or_create_duckdb_connection fn s).2.2.nextConn = s.nextConn + 1 ∧
      (get_or_create_duckdb_connection fn s).2.2.connCache.lookup fn = some s.nextConn := by
  rw [get_or_create_duckdb_connection] at h ⊢
  rcases hc : s.connCache.lookup fn with _ | c <;>
    rcases hr : s.regCache.lookup fn with _ | r
  · refine ⟨rfl, rfl, ?_⟩
    simp [List.lookup]
  · refine ⟨rfl, rfl, ?_⟩
    simp [List.lookup]
  · refine ⟨rfl, rfl, ?_⟩
    simp [List.lookup]
  · rw [hc, hr] at h
    simp at h

theorem get_or_create_reuse_state {fn : String} {s : DuckState}
    (h : (get_or_create_duckdb_connection fn s).2.1 = false) :
    (get_or_create_duckdb_connection fn s).2.2 = s := by
  rw [get_or_create_duckdb_connection] at h ⊢
  rcases hc : s.connCache.lookup fn with _ | c <;>
    rcases hr : s.regCache.lookup fn with _ | r
  · rw [hc, hr] at h; simp at h
  · rw [hc, hr] at h; simp at h
  · rw [hc, hr] at h; simp at h
  · rfl

theorem get_or_create_regCount (fn : String) (s : DuckState) :
    (get_or_create_duckdb_connection fn s).2.2.regCount = s.regCount := by
  rw [get_or_create_duckdb_connection]
  rcases hc : s.connCache.lookup fn with _ | c <;>
    rcases hr : s.regCache.lookup fn with _ | r <;> rfl

theorem get_or_create_log (fn : String) (s : DuckState) :
    (get_or_create_duckdb_connection fn s).2.2.log = s.log := by
  rw [get_or_create_duckdb_connection]
  rcases hc : s.connCache.lookup fn with _ | c <;>
    rcases hr : s.regCache.lookup fn with _ | r <;> rfl

theorem ite_triple_state (c : Prop) [Decidable c] (a b : QueryOutcome) (st : DuckState) (n : Nat) :
    ((if c then (a, st, n) else (b, st, n)) : QueryOutcome × DuckState × Nat).2.1 = st := by
  split <;> rfl

theorem cdq_step_state {fuel : Nat} {exec : Nat → ExecOutcome} {k : Nat} {fn : String}
    {sheets : List String} {q : String} {s : DuckState} (h : NotStale (exec k)) :
    ∃ extra : List String,
      (complex_duckdb_query (fuel + 1) exec k fn sheets q s).2.1 =
        { (if (get_or_create_duckdb_connection fn s).2.1 then
            registerSheets fn sheets (get_or_create_duckdb_connection fn s).2.2
          else (get_or_create_duckdb_connection fn s).2.2) with
          log := (if (get_or_create_duckdb_connection fn s).2.1 then
            registerSheets fn sheets (get_or_create_duckdb_connection fn s).2.2
          else (get_or_create_duckdb_connection fn s).2.2).log ++ extra } := by
  rcases he : exec k with ⟨cols, rows⟩ | m
  · refine ⟨[], ?_⟩
    simp only [complex_duckdb_query, he]
    rw [ite_triple_state]
    simp only [List.append_nil]
  · rw [he] at h
    simp only [NotStale] at h
    refine ⟨["DuckDB query error: " ++ m], ?_⟩
    simp only [complex_duckdb_query, he, h, Bool.false_eq_true, if_false]

theorem registered_state_props (fn : String) (sheets : List String) (s : DuckState) :
    (((if (get_or_create_duckdb_connection fn s).2.1 then
          registerSheets fn sheets (get_or_create_duckdb_connection fn s).2.2
        else (get_or_create_duckdb_connection fn s).2.2).connCache.lookup fn).isSome ∧
      ((if (get_or_create_duckdb_connection fn s).2.1 then
          registerSheets fn sheets (get_or_create_duckdb_connection fn s).2.2
        else (get_or_create_duckdb_connection fn s).2.2).regCache.lookup fn).isSome ∧
      (if (get_or_create_duckdb_connection fn s).2.1 then
          registerSheets fn sheets (get_or_create_duckdb_connection fn s).2.2
        else (get_or_create_duckdb_connection fn s).2.2).regCount ≤ s.regCount + 1 ∧
      ((get_or_create_duckdb_connection fn s).2.1 = false →
        (if (get_or_create_duckdb_connection fn s).2.1 then
          registerSheets fn sheets (get_or_create_duckdb_connection fn s).2.2
        else (get_or_create_duckdb_connection fn s).2.2) = s)) := by
  by_cases hreg : (get_or_create_duckdb_connection fn s).2.1 = true
  · obtain ⟨-, -, hconn⟩ := get_or_create_fresh fn s hreg
    simp only [hreg, if_true]
    refine ⟨?_, ?_, ?_, ?_⟩
    · simp only [registerSheets, hconn]
      rfl
    · simp [registerSheets, List.lookup]
    · simp only [registerSheets, get_or_create_regCount]
      omega
    · intro hcontra
      simp at hcontra
  · rw [Bool.not_eq_true] at hreg
    have hs := get_or_create_reuse_state hreg
    obtain ⟨hc, hr⟩ := (get_or_create_false_iff fn s).mp hreg
    simp only [hreg, Bool.false_eq_true, if_false, hs]
    exact ⟨hc, hr, by omega, fun _ => trivial⟩

theorem cdq_benign_step {fuel : Nat} {exec : Nat → ExecOutcome} {k : Nat} {fn : String}
    {sheets : List String} {q : String} {s : DuckState} (h : NotStale (exec k)) :
    ((complex_duckdb_query (fuel + 1) exec k fn sheets q s).2.1.connCache.lookup fn).isSome ∧
      ((complex_duckdb_query (fuel + 1) exec k fn sheets q s).2.1.regCache.lookup fn).isSome ∧
      (complex_duckdb_query (fuel + 1) exec k fn sheets q s).2.1.regCount ≤ s.regCount + 1 ∧
      ((get_or_create_duckdb_connection fn s).2.1 = false →
        (complex_duckdb_query (fuel + 1) exec k fn sheets q s).2.1.regCount = s.regCount) := by
  obtain ⟨extra, hst⟩ := @cdq_step_state fuel exec k fn sheets q s h
  obtain ⟨h1, h2, h3, h4⟩ := registered_state_props fn sheets s
  refine ⟨?_, ?_, ?_, ?_⟩
  · rw [hst]; exact h1
  · rw [hst]; exact h2
  · rw [hst]; exact h3
  · intro hf
    rw [hst, h4 hf]

/-- Claim C3: `get_or_create_duckdb_connection` reports
`needsRegistration = false` exactly when both the connection and the
registration record are cached, and otherwise hands out a fresh
connection (the current value of the handle counter, which it caches and
bumps); consequently, under benign first execution attempts, two
successive `complex_duckdb_query` calls on the same workbook register
its sheets at most once — the first call leaves both cache entries in
place, the second call observes `needsRegistration = false` and performs
no registration pass. -/
theorem get_or_create_cache_reuse :
    (∀ (fn : String) (s : DuckState),
        ((get_or_create_duckdb_connection fn s).2.1 = false ↔
          (s.connCache.lookup fn).isSome ∧ (s.regCache.lookup fn).isSome) ∧
        ((get_or_create_duckdb_connection fn s).2.1 = true →
          (get_or_create_duckdb_connection fn s).1 = s.nextConn ∧
            (get_or_create_duckdb_connection fn s).2.2.nextConn = s.nextConn + 1 ∧
            (get_or_create_duckdb_connection fn s).2.2.connCache.lookup fn =
              some s.nextConn)) ∧
      ∀ (fuel₁ fuel₂ : Nat) (e₁ e₂ : Nat → ExecOutcome) (fn : String)
        (sheets : List String) (q₁ q₂ : String) (s : DuckState),
        NotStale (e₁ 0) → NotStale (e₂ 0) →
        (get_or_create_duckdb_connection fn
            (complex_duckdb_query (fuel₁ + 1) e₁ 0 fn sheets q₁ s).2.1).2.1 = false ∧
          (complex_duckdb_query (fuel₁ + 1) e₁ 0 fn sheets q₁ s).2.1.regCount ≤
            s.regCount + 1 ∧
          (complex_duckdb_query (fuel₂ + 1) e₂ 0 fn sheets q₂
              (complex_duckdb_query (fuel₁ + 1) e₁ 0 fn sheets q₁ s).2.1).2.1.regCount =
            (complex_duckdb_query (fuel₁ + 1) e₁ 0 fn sheets q₁ s).2.1.regCount := by
  constructor
  · intro fn s
    exact ⟨get_or_create_false_iff fn s, get_or_create_fresh fn s⟩
  · intro fuel₁ fuel₂ e₁ e₂ fn sheets q₁ q₂ s h₁ h₂
    obtain ⟨c1, c2, c3, -⟩ := @cdq_benign_step fuel₁ e₁ 0 fn sheets q₁ s h₁
    have hfalse : (get_or_create_duckdb_connection fn
        (complex_duckdb_query (fuel₁ + 1) e₁ 0 fn sheets q₁ s).2.1).2.1 = false :=
      (get_or_create_false_iff fn _).mpr ⟨c1, c2⟩
    obtain ⟨-, -, -, d4⟩ := @cdq_benign_step fuel₂ e₂ 0 fn sheets q₂ (complex_duckdb_query (fuel₁ + 1) e₁ 0 fn sheets q₁ s).2.1 h₂
    exact ⟨hfalse, c3, d4 hfalse⟩

/-- Witness for C3: concrete successive calls on a fresh cache with an
always-succeeding engine; the hypotheses hold since a successful
execution is not a stale-connection failure. -/
theorem get_or_create_cache_reuse_witness :
    NotStale (okOracle 0) ∧
      (get_or_create_duckdb_connection "wb.xlsx"
          (complex_duckdb_query 1 okOracle 0 "wb.xlsx" ["Sales Data"] "SELECT 1"
            initialDuckState).2.1).2.1 = false ∧
      (complex_duckdb_query 1 okOracle 0 "wb.xlsx" ["Sales Data"] "SELECT 1"
          initialDuckState).2.1.regCount ≤ initialDuckState.regCount + 1 := by
  have h := get_or_create_cache_reuse.2 0 0 okOracle okOracle "wb.xlsx" ["Sales Data"]
    "SELECT 1" "SELECT 2" initialDuckState trivial trivial
  exact ⟨trivial, h.1, h.2.1⟩

theorem cdq_failure_msg :
    ∀ (fuel : Nat) (exec : Nat → ExecOutcome) (k : Nat) (fn : String) (sheets : List String)
      (q : String) (s : DuckState) (em dq : String),
      (complex_duckdb_query fuel exec k fn sheets q s).1 = .failure em dq →
        em = user_friendly_message := by
  intro fuel
  induction fuel with
  | zero =>
    intro exec k fn sheets q s em dq hctr
    simp [complex_duckdb_query] at hctr
  | succ n ih =>
    intro exec k fn sheets q s em dq hctr
    rcases he : exec k with ⟨cols, rows⟩ | m
    · simp only [complex_duckdb_query, he] at hctr
      split at hctr <;> simp at hctr
    · simp only [complex_duckdb_query, he] at hctr
      by_cases hstale : isStaleError m = true
      · rw [if_pos hstale] at hctr
        exact ih _ _ _ _ _ _ _ _ hctr
      · rw [if_neg hstale] at hctr
        simp only [QueryOutcome.failure.injEq] at hctr
        exact hctr.1.symm

/-- Claim C8: whatever the engine's diagnostic text, a terminal query
failure reaches the caller only as the fixed generic user-facing message
of `get_user_friendly_error_message`; the raw diagnostic is appended to
the operator log and never appears in the returned result. -/
theorem complex_duckdb_query_generic_error :
    (∀ (fuel : Nat) (exec : Nat → ExecOutcome) (k : Nat) (fn : String)
        (sheets : List String) (q : String) (s : DuckState) (em dq : String),
        (complex_duckdb_query fuel exec k fn sheets q s).1 = .failure em dq →
          em = user_friendly_message) ∧
      ∀ (m fn q : String) (sheets : List String),
        isStaleError m = false →
        (complex_duckdb_query 1 (fun _ => .raise m) 0 fn sheets q initialDuckState).1 =
            .failure user_friendly_message q ∧
          (complex_duckdb_query 1 (fun _ => .raise m) 0 fn sheets q
              initialDuckState).2.1.log = ["DuckDB query error: " ++ m] := by
  refine ⟨cdq_failure_msg, ?_⟩
  intro m fn q sheets h
  simp only [complex_duckdb_query, h, Bool.false_eq_true, if_false]
  constructor <;> trivial

/-- Witness for C8: a concrete non-stale engine failure; the caller sees
the generic message, the log the raw diagnostic. -/
theorem complex_duckdb_query_generic_error_witness :
    isStaleError "Binder Error: bad query" = false ∧
      (complex_duckdb_query 1 (fun _ => .raise "Binder Error: bad query") 0 "wb.xlsx"
          ["S"] "SELECT 1" initialDuckState).1 =
        .failure user_friendly_message "SELECT 1" ∧
      (complex_duckdb_query 1 (fun _ => .raise "Binder Error: bad query") 0 "wb.xlsx"
          ["S"] "SELECT 1" initialDuckState).2.1.log =
        ["DuckDB query error: " ++ "Binder Error: bad query"] := by
  have h := complex_duckdb_query_generic_error.2 "Binder Error: bad query" "wb.xlsx"
    "SELECT 1" ["S"] (by decide)
  exact ⟨by decide, h.1, h.2⟩

/-! ### Claims C1 and C9: orchestrator state machine -/

theorem run_workflow_preview_loop_aux :
    ∀ n : Nat,
      run_workflow allPreviewOracle "summary" "data.xlsx" "question" n =
        (WorkNode.generate_query, previewLoopState "data.xlsx" "question" n) := by
  intro n
  induction n with
  | zero => rfl
  | succ k ih =>
    rw [run_workflow, ih]
    cases k with
    | zero => rfl
    | succ j => rfl

/-- Counterexample for C1: with an engine that answers every turn with a
successful preview load, after 15 super-steps the workflow is still at
`generate_query`, the iteration count has reached 15 and no error — in
particular no budget-exhaustion error — has been recorded, so the
workflow neither terminated at iteration count 11 nor kept the count
at 11 or below. -/
theorem run_workflow_budget_counterexample :
    (run_workflow allPreviewOracle "summary" "data.xlsx" "question" 15).1 =
        WorkNode.generate_query ∧
      (run_workflow allPreviewOracle "summary" "data.xlsx" "question" 15).2.iterations_count =
        15 ∧
      (run_workflow allPreviewOracle "summary" "data.xlsx" "question" 15).2.error = none :=
  ⟨rfl, rfl, rfl⟩

theorem node_preview_ok (s : OrchState) (hfn : s.file_name ≠ "") (hq : s.user_input ≠ "") :
    generate_and_execute_query_node (.previewCall none) s =
      { s with iterations_count := s.iterations_count + 1, preview_data := some true,
               workflow_stage := "generate_query" } := by
  rw [generate_and_execute_query_node, if_neg (by push_neg; exact ⟨hfn, hq⟩)]

theorem node_plaintext (s : OrchState) (hfn : s.file_name ≠ "") (hq : s.user_input ≠ "") :
    generate_and_execute_query_node .plainText s =
      { s with iterations_count := s.iterations_count + 1,
               error := some user_friendly_message } := by
  rw [generate_and_execute_query_node, if_neg (by push_neg; exact ⟨hfn, hq⟩)]

theorem step_gq_preview (oracle : Nat → EngineResponse) (a : String) (s : OrchState)
    (hfn : s.file_name ≠ "") (hq : s.user_input ≠ "")
    (hor : oracle s.iterations_count = .previewCall none)
    (herr : s.error = none) (hqr : s.query_result = none) :
    workflow_step oracle a (.generate_query, s) =
      (.generate_query,
        { s with iterations_count := s.iterations_count + 1, preview_data := some true,
                 workflow_stage := "generate_query" }) := by
  rw [workflow_step, hor, node_preview_ok s hfn hq, should_continue_to_analysis]
  simp [herr, hqr]

theorem step_gq_plaintext (oracle : Nat → EngineResponse) (a : String) (s : OrchState)
    (hfn : s.file_name ≠ "") (hq : s.user_input ≠ "")
    (hor : oracle s.iterations_count = .plainText) :
    workflow_step oracle a (.generate_query, s) =
      (.terminated,
        { s with iterations_count := s.iterations_count + 1,
                 error := some user_friendly_message }) := by
  rw [workflow_step, hor, node_plaintext s hfn hq, should_continue_to_analysis]
  simp

theorem step_terminated (oracle : Nat → EngineResponse) (a : String) (s : OrchState) :
    workflow_step oracle a (.terminated, s) = (.terminated, s) := rfl

theorem previewLoopState_fields (fn q : String) (i : Nat) :
    (previewLoopState fn q i).file_name = fn ∧ (previewLoopState fn q i).user_input = q ∧
      (previewLoopState fn q i).iterations_count = i ∧
      (previewLoopState fn q i).error = none ∧
      (previewLoopState fn q i).query_result = none ∧
      (previewLoopState fn q i).final_analysis = none := by
  cases i with
  | zero => exact ⟨rfl, rfl, rfl, rfl, rfl, rfl⟩
  | succ j => exact ⟨rfl, rfl, rfl, rfl, rfl, rfl⟩

theorem previewLoopState_bump (fn q : String) (i : Nat) :
    ({ previewLoopState fn q i with
        iterations_count := (previewLoopState fn q i).iterations_count + 1,
        preview_data := some true, workflow_stage := "generate_query" } : OrchState) =
      previewLoopState fn q (i + 1) := by
  cases i with
  | zero => rfl
  | succ j => rfl

theorem run_preview_invariant (oracle : Nat → EngineResponse) (a fn q : String) (k : Nat)
    (hfn : fn ≠ "") (hq : q ≠ "")
    (h : ∀ i, i < k → oracle i = .previewCall none) :
    ∀ i, i ≤ k →
      run_workflow oracle a fn q i = (.generate_query, previewLoopState fn q i) := by
  intro i
  induction i with
  | zero => intro _; rfl
  | succ j ih =>
    intro hik
    have hrun := ih (by omega)
    obtain ⟨f1, f2, f3, f4, f5, -⟩ := previewLoopState_fields fn q j
    rw [run_workflow, hrun]
    rw [step_gq_preview oracle a _ (by rw [f1]; exact hfn) (by rw [f2]; exact hq)
      (by rw [f3]; exact h j (by omega)) f4 f5]
    rw [previewLoopState_bump]

theorem node_preview_err (s : OrchState) (hfn : s.file_name ≠ "") (hq : s.user_input ≠ "")
    (m : String) :
    generate_and_execute_query_node (.previewCall (some m)) s =
      { s with iterations_count := s.iterations_count + 1, preview_data := some false,
               error := some m, workflow_stage := "error" } := by
  rw [generate_and_execute_query_node, if_neg (by push_neg; exact ⟨hfn, hq⟩)]

theorem node_exec_err (s : OrchState) (hfn : s.file_name ≠ "") (hq : s.user_input ≠ "")
    (m : String) :
    generate_and_execute_query_node (.execCall (some m)) s =
      { s with iterations_count := s.iterations_count + 1,
               query_result := some (some m), error := some m,
               workflow_stage := "error" } := by
  rw [generate_and_execute_query_node, if_neg (by push_neg; exact ⟨hfn, hq⟩)]

theorem step_gq_preview_err (oracle : Nat → EngineResponse) (a : String) (s : OrchState)
    (hfn : s.file_name ≠ "") (hq : s.user_input ≠ "") (m : String)
    (hor : oracle s.iterations_count = .previewCall (some m)) :
    workflow_step oracle a (.generate_query, s) =
      (.terminated,
        { s with iterations_count := s.iterations_count + 1, preview_data := some false,
                 error := some m, workflow_stage := "error" }) := by
  rw [workflow_step, hor, node_preview_err s hfn hq m, should_continue_to_analysis]
  simp

theorem step_gq_exec_err (oracle : Nat → EngineResponse) (a : String) (s : OrchState)
    (hfn : s.file_name ≠ "") (hq : s.user_input ≠ "") (m : String)
    (hor : oracle s.iterations_count = .execCall (some m)) :
    workflow_step oracle a (.generate_query, s) =
      (.terminated,
        { s with iterations_count := s.iterations_count + 1,
                 query_result := some (some m), error := some m,
                 workflow_stage := "error" }) := by
  rw [workflow_step, hor, node_exec_err s hfn hq m, should_continue_to_analysis]
  simp

/-- Claim C1 (amended): for a sequence of engine responses that never
yields a successful executable query, the iteration budget of
`should_continue_after_analysis` is never consulted, since the `analyze`
node is never reached.  If every turn is a successful preview load the
workflow loops in `generate_query` forever — after any number of
super-steps it has not terminated, the iteration count equals the number
of turns taken (exceeding 11 and every other bound), and no
budget-exhaustion (or other) error is recorded.  Otherwise the first
turn that is not a successful preview load is an error response (failed
preview, failed executable query, or plain text), and the workflow
terminates on that very turn carrying that turn's error — not a
budget-exhaustion error. -/
theorem run_workflow_preview_loop_unbounded :
    (∀ n : Nat,
        (run_workflow allPreviewOracle "summary" "data.xlsx" "question" n).1 ≠
            WorkNode.terminated ∧
          (run_workflow allPreviewOracle "summary" "data.xlsx" "question"
              n).2.iterations_count = n ∧
          (run_workflow allPreviewOracle "summary" "data.xlsx" "question" n).2.error =
            none) ∧
      ∀ (oracle : Nat → EngineResponse) (a fn q : String) (k : Nat) (e : String),
        fn ≠ "" → q ≠ "" →
        (∀ i, i < k → oracle i = .previewCall none) →
        responseError (oracle k) = some e →
        (run_workflow oracle a fn q (k + 1)).1 = WorkNode.terminated ∧
          (run_workflow oracle a fn q (k + 1)).2.error = some e := by
  constructor
  · intro n
    rw [run_workflow_preview_loop_aux n]
    cases n with
    | zero => exact ⟨by simp, rfl, rfl⟩
    | succ k => exact ⟨by simp, rfl, rfl⟩
  · intro oracle a fn q k e hfn hq hprev herr
    obtain ⟨f1, f2, f3, f4, f5, -⟩ := previewLoopState_fields fn q k
    have hk := run_preview_invariant oracle a fn q k hfn hq hprev k (le_refl k)
    cases ho : oracle k with
    | previewCall om =>
      cases om with
      | none => rw [ho] at herr; simp [responseError] at herr
      | some m =>
        rw [ho] at herr
        simp only [responseError, Option.some.injEq] at herr
        subst herr
        rw [run_workflow, hk, step_gq_preview_err oracle a _ (by rw [f1]; exact hfn)
          (by rw [f2]; exact hq) m (by rw [f3]; exact ho)]
        exact ⟨rfl, rfl⟩
    | execCall om =>
      cases om with
      | none => rw [ho] at herr; simp [responseError] at herr
      | some m =>
        rw [ho] at herr
        simp only [responseError, Option.some.injEq] at herr
        subst herr
        rw [run_workflow, hk, step_gq_exec_err oracle a _ (by rw [f1]; exact hfn)
          (by rw [f2]; exact hq) m (by rw [f3]; exact ho)]
        exact ⟨rfl, rfl⟩
    | plainText =>
      rw [ho] at herr
      simp only [responseError, Option.some.injEq] at herr
      subst herr
      rw [run_workflow, hk, step_gq_plaintext oracle a _ (by rw [f1]; exact hfn)
        (by rw [f2]; exact hq) (by rw [f3]; exact ho)]
      exact ⟨rfl, rfl⟩

/-- Witness for C1: the engine's very first turn already fails the
preview load; the workflow terminates on that turn carrying that
preview error. -/
theorem run_workflow_preview_loop_unbounded_witness :
    ("data.xlsx" : String) ≠ "" ∧ ("question" : String) ≠ "" ∧
      responseError ((fun _ => EngineResponse.previewCall (some "boom")) 0) = some "boom" ∧
      (run_workflow (fun _ => EngineResponse.previewCall (some "boom")) "summary"
          "data.xlsx" "question" 1).1 = WorkNode.terminated ∧
      (run_workflow (fun _ => EngineResponse.previewCall (some "boom")) "summary"
          "data.xlsx" "question" 1).2.error = some "boom" := by
  have h := run_workflow_preview_loop_unbounded.2
    (fun _ => EngineResponse.previewCall (some "boom")) "summary" "data.xlsx" "question"
    0 "boom" (by decide) (by decide) (fun i hi => absurd hi (Nat.not_lt_zero i)) rfl
  exact ⟨by decide, by decide, rfl, h.1, h.2⟩

theorem run_workflow_absorbs (oracle : Nat → EngineResponse) (a fn q : String) (m : Nat)
    (h : (run_workflow oracle a fn q m).1 = .terminated) :
    ∀ j : Nat, run_workflow oracle a fn q (m + j) = run_workflow oracle a fn q m := by
  intro j
  induction j with
  | zero => rfl
  | succ i ih =>
    have : m + (i + 1) = (m + i) + 1 := by omega
    rw [this, run_workflow, ih]
    rcases hr : run_workflow oracle a fn q m with ⟨node, st⟩
    rw [hr] at h
    simp at h
    rw [h]
    rfl

/-- Claim C9: if, after any number of successful preview-load turns, the
reasoning engine replies with plain text and no tool call, the
orchestrator records the generic error and terminates on that very turn;
the `generate_analysis` node is never entered and no summary is
produced. -/
theorem plain_text_terminates_without_analysis :
    ∀ (oracle : Nat → EngineResponse) (a fn q : String) (k : Nat),
      fn ≠ "" → q ≠ "" →
      (∀ i, i < k → oracle i = .previewCall none) → oracle k = .plainText →
      (run_workflow oracle a fn q (k + 1)).1 = WorkNode.terminated ∧
        (run_workflow oracle a fn q (k + 1)).2.error = some user_friendly_message ∧
        (run_workflow oracle a fn q (k + 1)).2.final_analysis = none ∧
        ∀ m : Nat, (run_workflow oracle a fn q m).1 ≠ WorkNode.generate_analysis := by
  intro oracle a fn q k hfn hq hprev hpt
  obtain ⟨f1, f2, f3, f4, f5, f6⟩ := previewLoopState_fields fn q k
  have hk := run_preview_invariant oracle a fn q k hfn hq hprev k (le_refl k)
  have hstep : run_workflow oracle a fn q (k + 1) =
      (.terminated,
        { previewLoopState fn q k with
            iterations_count := (previewLoopState fn q k).iterations_count + 1,
            error := some user_friendly_message }) := by
    rw [run_workflow, hk]
    exact step_gq_plaintext oracle a _ (by rw [f1]; exact hfn) (by rw [f2]; exact hq)
      (by rw [f3]; exact hpt)
  refine ⟨by rw [hstep], by rw [hstep], by rw [hstep]; exact f6, ?_⟩
  intro m
  rcases Nat.lt_or_ge m (k + 1) with hm | hm
  · rw [run_preview_invariant oracle a fn q k hfn hq hprev m (by omega)]
    simp
  · have hmeq : m = (k + 1) + (m - (k + 1)) := by omega
    rw [hmeq, run_workflow_absorbs oracle a fn q (k + 1) (by rw [hstep]) (m - (k + 1))]
    rw [hstep]
    simp

/-- Witness for C9: the engine answers the very first turn with plain
text; the workflow terminates at once in the error state. -/
theorem plain_text_terminates_without_analysis_witness :
    ("data.xlsx" : String) ≠ "" ∧ ("question" : String) ≠ "" ∧
      (run_workflow (fun _ => EngineResponse.plainText) "summary" "data.xlsx" "question" 1).1 =
        WorkNode.terminated ∧
      (run_workflow (fun _ => EngineResponse.plainText) "summary" "data.xlsx" "question" 1).2.final_analysis =
        none := by
  have h := plain_text_terminates_without_analysis (fun _ => EngineResponse.plainText)
    "summary" "data.xlsx" "question" 0 (by decide) (by decide)
    (fun i hi => absurd hi (Nat.not_lt_zero i)) rfl
  exact ⟨by decide, by decide, h.1, h.2.2.1⟩

end Genba
